import Mathlib

/-!
Verification of the planarity / embedding-validation scripts of this
repository (`assets/check_planar.py`, `assets/verify_answers.py`) against a
shallow embedding in Lean.

The two Python scripts under `src/` are thin drivers around the repository's
planarity core (an implementation of the left-right planarity algorithm and a
rotation-system `PlanarEmbedding` structure).  That core is not present under
`src/`; following the specification, the missing parts are modelled here from
the spec's own words (sections 4.1 to 4.6).  Every such definition carries a
doc comment starting with `Modelled from the spec:`.  The code that *is* under
`src/` (`verify_embedding`, `main` of `verify_answers.py`, `main` of
`check_planar.py`) is translated directly from the source.
-/

namespace Spqr

/-! ### Association-list helpers

Python dictionaries preserve insertion order; we model them as association
lists whose `set` operation replaces in place (keeping one entry per key),
so iteration order matches Python's dict semantics. -/

/-- Look up a key in an association list. -/
def amLookup {κ α : Type} [DecidableEq κ] (m : List (κ × α)) (k : κ) : Option α :=
  match m with
  | [] => none
  | (k0, a) :: rest => if k0 = k then some a else amLookup rest k

/-- Look up with a default value (Python's `defaultdict`). -/
def amLookupD {κ α : Type} [DecidableEq κ] (m : List (κ × α)) (k : κ) (d : α) : α :=
  match amLookup m k with
  | some a => a
  | none => d

/-- Set a key, replacing an existing binding in place or appending a new one
(matches insertion-ordered Python dict assignment). -/
def amSet {κ α : Type} [DecidableEq κ] (m : List (κ × α)) (k : κ) (a : α) :
    List (κ × α) :=
  match m with
  | [] => [(k, a)]
  | (k0, a0) :: rest =>
    if k0 = k then (k, a) :: rest else (k0, a0) :: amSet rest k a

/-- All elements of a list are pairwise distinct (executable). -/
def allDistinct {α : Type} [DecidableEq α] : List α → Bool
  | [] => true
  | x :: xs => (!(xs.contains x)) && allDistinct xs

/-- Insert an element into a list immediately after the first occurrence of a
reference element; if the reference is absent the list is unchanged. -/
def insertAfter {α : Type} [DecidableEq α] (l : List α) (ref x : α) : List α :=
  match l with
  | [] => []
  | y :: ys => if y = ref then y :: x :: ys else y :: insertAfter ys ref x

/-- Insert an element into a list immediately before the first occurrence of a
reference element; if the reference is absent the list is unchanged. -/
def insertBefore {α : Type} [DecidableEq α] (l : List α) (ref x : α) : List α :=
  match l with
  | [] => []
  | y :: ys => if y = ref then x :: y :: ys else y :: insertBefore ys ref x

/-- The element cyclically following the first occurrence of `x` in `l`. -/
def cyclicNext (l : List Nat) (x : Nat) : Option Nat :=
  match l.indexOf? x with
  | none => none
  | some i =>
    match l.get? ((i + 1) % l.length) with
    | some y => some y
    | none => none

/-! ### The Embedding (rotation system) structure

Modelled from the spec (section 4.5): a directed half-edge representation;
for every vertex an ordered (CCW) circular sequence of neighbors.  We store,
per vertex, the CCW rotation as a list (the cyclic order read
counterclockwise). -/

/-- A rotation system: each vertex maps to the CCW-ordered list of its
neighbors.  This is the `Embedding` structure of spec section 4.5. -/
def Emb : Type := List (Nat × List Nat)

instance : DecidableEq Emb := by
  unfold Emb
  infer_instance

/-- The structural error taxonomy of spec sections 4.5 / 7(c). -/
inductive EmbErr : Type
  | alreadyInserted
  | referenceNotFound
  deriving DecidableEq, Repr

instance {ε α : Type} [DecidableEq ε] [DecidableEq α] : DecidableEq (Except ε α) :=
  fun a b =>
    match a, b with
    | Except.ok x, Except.ok y =>
      if h : x = y then isTrue (by rw [h])
      else isFalse (by intro hc; cases hc; exact h rfl)
    | Except.error x, Except.error y =>
      if h : x = y then isTrue (by rw [h])
      else isFalse (by intro hc; cases hc; exact h rfl)
    | Except.ok _, Except.error _ => isFalse (by intro hc; cases hc)
    | Except.error _, Except.ok _ => isFalse (by intro hc; cases hc)

/-- The CCW rotation of a vertex (empty if the vertex has no entry). -/
def rotOf (emb : Emb) (u : Nat) : List Nat :=
  amLookupD emb u []

/-- Modelled from the spec: `add_half_edge(u, v)` of section 4.5 — creates the
first entry in `u`'s rotation for neighbor `v`; fails with
`AlreadyInsertedError` if `u` already has an entry for `v`. -/
def addHalfEdge (emb : Emb) (u v : Nat) : Except EmbErr Emb :=
  let r := rotOf emb u
  if r.contains v then Except.error EmbErr.alreadyInserted
  else Except.ok (amSet emb u (v :: r))

/-- Modelled from the spec: `add_half_edge_ccw(u, v, reference_neighbor)` of
section 4.5 — inserts `v` into `u`'s rotation immediately after
`reference_neighbor` in CCW order; fails with `ReferenceNotFoundError` if the
reference is not yet present, or `AlreadyInsertedError` if `v` is already
present. -/
def addHalfEdgeCcw (emb : Emb) (u v ref : Nat) : Except EmbErr Emb :=
  let r := rotOf emb u
  if !(r.contains ref) then Except.error EmbErr.referenceNotFound
  else if r.contains v then Except.error EmbErr.alreadyInserted
  else Except.ok (amSet emb u (insertAfter r ref v))

/-- All half-edges (u → v) of an embedding, in rotation order. -/
def halfEdges (emb : Emb) : List (Nat × Nat) :=
  emb.flatMap (fun p => p.2.map (fun v => (p.1, v)))

/-- All vertices mentioned by an embedding (rotation keys and targets). -/
def embVertices (emb : Emb) : List Nat :=
  (emb.map Prod.fst ++ (halfEdges emb).map Prod.snd).dedup

/-- Modelled from the spec: the "next half-edge around the same face" link of
section 4.5 — from half-edge (u → v), the next half-edge around the face is
the one CCW-following (v → u) at `v`. -/
def faceNext (emb : Emb) (he : Nat × Nat) : Option (Nat × Nat) :=
  match cyclicNext (rotOf emb he.2) he.1 with
  | none => none
  | some w => some (he.2, w)

/-- Traverse the face starting at a half-edge, collecting the half-edges of
the face cycle; returns `none` if the walk does not close into a cycle within
the given number of steps. -/
def traverseFace (emb : Emb) (fuel : Nat) (start cur : Nat × Nat)
    (acc : List (Nat × Nat)) : Option (List (Nat × Nat)) :=
  match fuel with
  | 0 => none
  | Nat.succ fuel =>
    match faceNext emb cur with
    | none => none
    | some nxt =>
      if nxt = start then some (cur :: acc)
      else traverseFace emb fuel start nxt (cur :: acc)

/-- Count the faces touching the given half-edges; `none` if some half-edge
never closes into a face cycle within `2*E` steps. -/
def countFaces (emb : Emb) (fuel : Nat) :
    List (Nat × Nat) → List (Nat × Nat) → Option Nat
  | [], _ => some 0
  | he :: rest, visited =>
    if visited.contains he then countFaces emb fuel rest visited
    else
      match traverseFace emb fuel he he [] with
      | none => none
      | some cyc =>
        match countFaces emb fuel rest (cyc ++ visited) with
        | none => none
        | some n => some (n + 1)

/-- One BFS-style step collecting the connected component of a vertex inside
an embedding (adjacency via rotations). -/
def componentOf (emb : Emb) : Nat → List Nat → List Nat → List Nat
  | 0, _, acc => acc
  | Nat.succ fuel, frontier, acc =>
    match frontier with
    | [] => acc
    | v :: rest =>
      if acc.contains v then componentOf emb fuel rest acc
      else componentOf emb fuel (rotOf emb v ++ rest) (acc ++ [v])

/-- The connected components of an embedding (as lists of vertices). -/
def embComponents (emb : Emb) : List (List Nat) :=
  let verts := embVertices emb
  let fuel := verts.length + (halfEdges emb).length + 1
  (verts.foldl
    (fun (acc : List (List Nat) × List Nat) v =>
      if acc.2.contains v then acc
      else
        let comp := componentOf emb (fuel * fuel + 1) [v] []
        (acc.1 ++ [comp], acc.2 ++ comp))
    ([], [])).1

/-- Euler check for one component: `V - E + F = 2`, with faces counted by
traversing the component's half-edges. -/
def componentEulerOk (emb : Emb) (comp : List Nat) : Bool :=
  let hes := (halfEdges emb).filter (fun he => comp.contains he.1)
  let fuel := (halfEdges emb).length + 1
  match countFaces emb fuel hes [] with
  | none => false
  | some f =>
    (comp.length : Int) - ((hes.length / 2 : Nat) : Int) + (f : Int) = 2

/-- Modelled from the spec: `check_structure()` of section 4.5 — verifies that
every half-edge has its twin, that every rotation is a duplicate-free
sequence, that face traversal always closes into a cycle, and that Euler's
relation `V - E + F = 2` holds for every connected component (isolated
vertices are skipped, per section 3's "no isolated vertices").  Returns
`false` where the source raises `MalformedEmbeddingError`. -/
def checkStructure (emb : Emb) : Bool :=
  let hes := halfEdges emb
  let twinsOk := hes.all (fun he => (rotOf emb he.2).contains he.1)
  let rotsOk := emb.all (fun p => allDistinct p.2)
  let eulerOk :=
    (embComponents emb).all (fun comp =>
      if comp.length ≤ 1 then true else componentEulerOk emb comp)
  twinsOk && rotsOk && eulerOk

/-! ### verify_embedding (src/assets/verify_answers.py, lines 48-67)

The construction loop (lines 53-59) runs *outside* the `try` block: errors
raised while inserting half-edges propagate to the caller.  The `try` block
covers `check_structure` and the edge-set comparison; a `NetworkXException`
there is caught and turned into `False`. -/

/-- The half-edge insertion loop of `verify_embedding` for one vertex `u` with
neighbor list `vs`: the first neighbor goes through `add_half_edge`, each
later one through `add_half_edge_ccw` with the previous neighbor as the
reference (`neighbors[i - 1]`). -/
def buildRow (emb : Emb) (u : Nat) (prev : Option Nat) :
    List Nat → Except EmbErr Emb
  | [] => Except.ok emb
  | v :: rest =>
    match prev with
    | none =>
      match addHalfEdge emb u v with
      | Except.error e => Except.error e
      | Except.ok emb2 => buildRow emb2 u (some v) rest
    | some p =>
      match addHalfEdgeCcw emb u v p with
      | Except.error e => Except.error e
      | Except.ok emb2 => buildRow emb2 u (some v) rest

/-- Fold the per-vertex insertion loop over the supplied rotation dict rows
(insertion order). -/
def buildEmbeddingGo (emb : Emb) : List (Nat × List Nat) → Except EmbErr Emb
  | [] => Except.ok emb
  | (u, vs) :: rest =>
    match buildRow emb u none vs with
    | Except.error e => Except.error e
    | Except.ok emb2 => buildEmbeddingGo emb2 rest

/-- The `PlanarEmbedding` construction of `verify_embedding` (lines 53-59). -/
def buildEmbedding (rows : List (Nat × List Nat)) : Except EmbErr Emb :=
  buildEmbeddingGo [] rows

/-- An unordered pair, normalized (Python's `frozenset((u, v))`). -/
def normPair (p : Nat × Nat) : Nat × Nat :=
  if p.1 ≤ p.2 then p else (p.2, p.1)

/-- `set(map(frozenset, edges))` — the reference edge set as a set of
normalized unordered pairs. -/
def edgeFinset (edges : List (Nat × Nat)) : Finset (Nat × Nat) :=
  (edges.map normPair).toFinset

/-- `set(frozenset((u, v)) for u in embedding for v in embedding[u])` — the
edge set induced by the supplied rotation dict. -/
def embFinset (rows : List (Nat × List Nat)) : Finset (Nat × Nat) :=
  ((rows.flatMap (fun p => p.2.map (fun v => normPair (p.1, v))))).toFinset

/-- `verify_embedding(edges, embedding)` of `src/assets/verify_answers.py`
(lines 48-67).  Construction errors propagate (`Except.error`); a failing
`check_structure` is caught by the `except nx.NetworkXException` handler and
yields `False`; otherwise the result is the edge-set equality. -/
def verifyEmbedding (edges : List (Nat × Nat)) (rows : List (Nat × List Nat)) :
    Except EmbErr Bool :=
  match buildEmbedding rows with
  | Except.error e => Except.error e
  | Except.ok emb =>
    if checkStructure emb then
      Except.ok (decide (edgeFinset edges = embFinset rows))
    else
      Except.ok false

/-! ### GraphModel

Modelled from the spec (section 4.1): a minimal undirected simple graph whose
`add_edge` rejects malformed input immediately. -/

/-- Modelled from the spec: the `GraphModel` of section 4.1 — vertex set and
edge set with insertion-ordered edges. -/
structure GraphModel where
  edges : List (Nat × Nat)
  deriving DecidableEq, Repr

/-- The construction error taxonomy of spec sections 4.1 / 7(a). -/
inductive GraphErr : Type
  | selfLoopError
  | duplicateEdgeError
  deriving DecidableEq, Repr

/-- The unordered pair `{u, v}` is already present among a graph's edges. -/
def hasEdge (g : GraphModel) (u v : Nat) : Bool :=
  g.edges.any (fun p => (p.1 = u && p.2 = v) || (p.1 = v && p.2 = u))

/-- Modelled from the spec: `add_edge(u, v)` of section 4.1 — fails with
`SelfLoopError` if `u = v`, fails with `DuplicateEdgeError` if `{u, v}` is
already present, and otherwise appends the edge (insertion order). -/
def addEdge (g : GraphModel) (u v : Nat) : Except GraphErr GraphModel :=
  if u = v then Except.error GraphErr.selfLoopError
  else if hasEdge g u v then Except.error GraphErr.duplicateEdgeError
  else Except.ok ⟨g.edges ++ [(u, v)]⟩

/-! ### The nx.Graph model

`main` of both scripts builds an `nx.Graph` via `add_edges_from`: an
insertion-ordered adjacency structure that collapses duplicate edges silently
and accepts self-loops.  The planarity core then copies it without
self-loops. -/

/-- An `nx.Graph`: node list and adjacency lists, both in insertion order. -/
structure NxGraph where
  nodes : List Nat
  adj : List (Nat × List Nat)
  deriving DecidableEq, Repr

/-- Add a node if absent (insertion order preserved). -/
def nxAddNode (g : NxGraph) (v : Nat) : NxGraph :=
  if g.nodes.contains v then g else { g with nodes := g.nodes ++ [v] }

/-- `G.add_edge(u, v)` on an `nx.Graph`: registers both endpoints, ignores a
duplicate edge, stores a self-loop once. -/
def nxAddEdge (g : NxGraph) (u v : Nat) : NxGraph :=
  let g := nxAddNode (nxAddNode g u) v
  if (amLookupD g.adj u []).contains v then g
  else if u = v then
    { g with adj := amSet g.adj u (amLookupD g.adj u [] ++ [u]) }
  else
    let adj1 := amSet g.adj u (amLookupD g.adj u [] ++ [v])
    { g with adj := amSet adj1 v (amLookupD adj1 v [] ++ [u]) }

/-- `G = nx.Graph(); G.add_edges_from(edges)`. -/
def nxGraphOf (edges : List (Nat × Nat)) : NxGraph :=
  edges.foldl (fun g p => nxAddEdge g p.1 p.2) ⟨[], []⟩

/-- `G.edges` iteration: nodes in insertion order, each undirected edge
reported once, from the endpoint reached first. -/
def nxEdges (g : NxGraph) : List (Nat × Nat) :=
  g.nodes.foldl
    (fun acc u =>
      (amLookupD g.adj u []).foldl
        (fun acc2 v =>
          if acc2.contains (u, v) || acc2.contains (v, u) then acc2
          else acc2 ++ [(u, v)])
        acc)
    []

/-- Modelled from the spec: the planarity core receives the graph "copied
without self-loops" (the guard that multi-edges/self-loops never reach the
left-right test, sections 4.1 / 4.2); nodes are preserved, adjacency is
rebuilt in edge-iteration order. -/
def lrCopy (g : NxGraph) : NxGraph :=
  (nxEdges g).foldl
    (fun h e => if e.1 = e.2 then h else nxAddEdge h e.1 e.2)
    ⟨g.nodes, []⟩

/-- Number of edges of an `nx.Graph` without self-loops. -/
def nxSize (g : NxGraph) : Nat :=
  (g.nodes.foldl (fun s v => s + (amLookupD g.adj v []).length) 0) / 2

/-! ### The left-right planarity tester

Modelled from the spec (sections 4.2 to 4.4): DFS orientation with heights,
lowpoints and nesting depths; a second DFS maintaining a stack of conflict
pairs of edge intervals; lazy sign resolution through "ref" pointers; and the
embedding builder.  Conflict-pair stack bottoms are recorded as stack heights
(the explicit-stack rendering demanded by sections 5 / 9). -/

/-- An interval of a conflict pair: a range of back edges delimited by its
lowest and highest edge (spec section 3). -/
structure Iv where
  low : Option (Nat × Nat)
  high : Option (Nat × Nat)
  deriving DecidableEq, Repr

/-- An interval with no edges. -/
def Iv.isEmpty (i : Iv) : Bool :=
  i.low.isNone && i.high.isNone

/-- A conflict pair: the left and right interval (spec section 3). -/
structure CPair where
  l : Iv
  r : Iv
  deriving DecidableEq, Repr

/-- Swap the two intervals of a conflict pair. -/
def CPair.swap (p : CPair) : CPair := ⟨p.r, p.l⟩

/-- The scratch state of one planarity query (spec sections 4.2 / 4.3):
heights, lowpoints, nesting depths, the oriented graph, the conflict-pair
stack, and the sign bookkeeping. -/
structure LRState where
  roots : List Nat
  height : List (Nat × Nat)
  lowpt : List ((Nat × Nat) × Nat)
  lowpt2 : List ((Nat × Nat) × Nat)
  nestingDepth : List ((Nat × Nat) × Int)
  parentEdge : List (Nat × (Nat × Nat))
  dgAdj : List (Nat × List Nat)
  orderedAdjs : List (Nat × List Nat)
  sRef : List ((Nat × Nat) × Option (Nat × Nat))
  side : List ((Nat × Nat) × Int)
  stack : List CPair
  stackBottom : List ((Nat × Nat) × Nat)
  lowptEdge : List ((Nat × Nat) × (Nat × Nat))
  leftRef : List (Nat × Nat)
  rightRef : List (Nat × Nat)
  embOut : Emb

/-- The empty scratch state. -/
def initLRState : LRState :=
  ⟨[], [], [], [], [], [], [], [], [], [], [], [], [], [], [], []⟩

/-- The lowpoint of an edge (0 if not yet assigned). -/
def lowptD (st : LRState) (e : Nat × Nat) : Nat :=
  amLookupD st.lowpt e 0

/-- Has the edge (v, w) already been oriented in this direction? -/
def orientedB (st : LRState) (v w : Nat) : Bool :=
  (amLookupD st.dgAdj v []).contains w

/-- After an edge (v, w) is fully explored: record its nesting depth
(`2 * lowpoint`, plus one if chordal) and fold its lowpoints into the parent
edge of `v` (spec section 4.2). -/
def edgePost (st : LRState) (vw : Nat × Nat) : LRState :=
  let v := vw.1
  let lp := lowptD st vw
  let lp2 := amLookupD st.lowpt2 vw 0
  let hv := amLookupD st.height v 0
  let nd : Int := if lp2 < hv then 2 * (lp : Int) + 1 else 2 * (lp : Int)
  let st := { st with nestingDepth := amSet st.nestingDepth vw nd }
  match amLookup st.parentEdge v with
  | none => st
  | some e =>
    let lpe := lowptD st e
    let lpe2 := amLookupD st.lowpt2 e 0
    if lp < lpe then
      { st with lowpt2 := amSet st.lowpt2 e (min lpe lp2),
                lowpt := amSet st.lowpt e lp }
    else if lp > lpe then
      { st with lowpt2 := amSet st.lowpt2 e (min lpe2 lp) }
    else
      { st with lowpt2 := amSet st.lowpt2 e (min lpe2 lp2) }

/-- The DFS orientation and lowpoint pass (spec section 4.2), run with an
explicit work stack of (vertex, remaining adjacency) frames.  Processing an
unoriented edge to an unvisited vertex descends; to a visited vertex it
records a back edge; popping a finished vertex runs the parent edge's
post-processing. -/
def dfsOrientLoop (adjs : List (Nat × List Nat)) :
    Nat → List (Nat × List Nat) → LRState → LRState
  | 0, _, st => st
  | Nat.succ fuel, frames, st =>
    match frames with
    | [] => st
    | (v, []) :: rest =>
      let st2 :=
        match amLookup st.parentEdge v with
        | some pe => edgePost st pe
        | none => st
      dfsOrientLoop adjs fuel rest st2
    | (v, w :: ws) :: rest =>
      if orientedB st v w || orientedB st w v then
        dfsOrientLoop adjs fuel ((v, ws) :: rest) st
      else
        let vw : Nat × Nat := (v, w)
        let hv := amLookupD st.height v 0
        let st1 :=
          { st with dgAdj := amSet st.dgAdj v (amLookupD st.dgAdj v [] ++ [w]),
                    lowpt := amSet st.lowpt vw hv,
                    lowpt2 := amSet st.lowpt2 vw hv }
        match amLookup st1.height w with
        | none =>
          let st2 :=
            { st1 with parentEdge := amSet st1.parentEdge w vw,
                       height := amSet st1.height w (hv + 1) }
          dfsOrientLoop adjs fuel ((w, amLookupD adjs w []) :: frames) st2
        | some hw =>
          let st2 := { st1 with lowpt := amSet st1.lowpt vw hw }
          dfsOrientLoop adjs fuel ((v, ws) :: rest) (edgePost st2 vw)

/-- One DFS orientation per connected component: every still-unvisited vertex
becomes a root of the DFS forest (spec section 4.2). -/
def orientAll (adjs : List (Nat × List Nat)) (fuel : Nat) :
    List Nat → LRState → LRState
  | [], st => st
  | v :: vs, st =>
    match amLookup st.height v with
    | some _ => orientAll adjs fuel vs st
    | none =>
      let st1 := { st with height := amSet st.height v 0, roots := st.roots ++ [v] }
      let st2 := dfsOrientLoop adjs fuel [(v, amLookupD adjs v [])] st1
      orientAll adjs fuel vs st2

/-- Stable insertion into a list sorted by an integer key (equal keys keep
their former relative order, as Python's stable sort does). -/
def insertByKey (key : Nat → Int) (x : Nat) : List Nat → List Nat
  | [] => [x]
  | y :: ys => if key y ≤ key x then y :: insertByKey key x ys else x :: y :: ys

/-- Stable sort of a list by an integer key. -/
def sortByKey (key : Nat → Int) (l : List Nat) : List Nat :=
  l.foldl (fun acc x => insertByKey key x acc) []

/-- Per-vertex ordering of outgoing edges by ascending nesting depth (spec
section 4.2: "more constrained branches first"). -/
def computeOrdered (st : LRState) (nodes : List Nat) : List (Nat × List Nat) :=
  nodes.map (fun v =>
    (v, sortByKey (fun w => amLookupD st.nestingDepth (v, w) 0)
          (amLookupD st.dgAdj v [])))

/-- Does an interval still constrain edge `b`: nonempty with its highest
return edge returning strictly lower than `b`'s lowpoint (spec section 4.3,
rule (1))? -/
def conflicting (i : Iv) (b : Nat × Nat) (st : LRState) : Bool :=
  !(i.isEmpty) &&
    (match i.high with
     | some h => decide (lowptD st h > lowptD st b)
     | none => false)

/-- The lowpoint of an interval's lowest edge (0 if absent). -/
def lowOf (st : LRState) (o : Option (Nat × Nat)) : Nat :=
  match o with
  | some e => lowptD st e
  | none => 0

/-- The lowest return point of a conflict pair. -/
def lowestCP (p : CPair) (st : LRState) : Nat :=
  if p.l.isEmpty then lowOf st p.r.low
  else if p.r.isEmpty then lowOf st p.l.low
  else min (lowOf st p.l.low) (lowOf st p.r.low)

/-- First merge loop of `add_constraints` (spec section 4.3): pop the conflict
pairs pushed while exploring edge `ei` (down to its recorded stack bottom) and
merge their return edges into the right interval of the new pair `P`; a pair
with both sides occupied signals non-planarity (`none`). -/
def acMergeR (e : Nat × Nat) (bottom : Nat) :
    Nat → LRState → CPair → Option (LRState × CPair)
  | 0, _, _ => none
  | Nat.succ fuel, st, P =>
    match st.stack with
    | [] => some (st, P)
    | q0 :: srest =>
      let st := { st with stack := srest }
      let q := if !(q0.l.isEmpty) then q0.swap else q0
      if !(q.l.isEmpty) then none
      else
        let step :=
          match q.r.low with
          | some ql =>
            if lowptD st ql > lowptD st e then
              let st2 :=
                match P.r.isEmpty, P.r.low with
                | false, some prl => { st with sRef := amSet st.sRef prl q.r.high }
                | _, _ => st
              let newR : Iv :=
                if P.r.isEmpty then { low := q.r.low, high := q.r.high }
                else { low := q.r.low, high := P.r.high }
              (st2, { P with r := newR })
            else
              ({ st with sRef := amSet st.sRef ql (amLookup st.lowptEdge e) }, P)
          | none => (st, P)
        if step.1.stack.length = bottom then some step
        else acMergeR e bottom fuel step.1 step.2

/-- Second merge loop of `add_constraints` (spec section 4.3): while the top
conflict pair still conflicts with `ei`, pop it and merge it into `P`; a pair
conflicting on both sides signals non-planarity (`none`). -/
def acMergeConfl (ei : Nat × Nat) :
    Nat → LRState → CPair → Option (LRState × CPair)
  | 0, _, _ => none
  | Nat.succ fuel, st, P =>
    match st.stack with
    | [] => some (st, P)
    | q0 :: srest =>
      if conflicting q0.l ei st || conflicting q0.r ei st then
        let st := { st with stack := srest }
        let q := if conflicting q0.r ei st then q0.swap else q0
        if conflicting q.r ei st then none
        else
          let st2 :=
            match P.r.low with
            | some prl => { st with sRef := amSet st.sRef prl q.r.high }
            | none => st
          let P2 :=
            match q.r.low with
            | some ql => { P with r := { low := some ql, high := P.r.high } }
            | none => P
          let (st3, P3) :=
            if P2.l.isEmpty then (st2, { P2 with l := q.l })
            else
              (match P2.l.low with
               | some pll => { st2 with sRef := amSet st2.sRef pll q.l.high }
               | none => st2,
               P2)
          let P4 := { P3 with l := { low := q.l.low, high := P3.l.high } }
          acMergeConfl ei fuel st3 P4
      else some (st, P)

/-- `add_constraints(ei, e)` of the left-right test (spec section 4.3):
returns `none` exactly when the constraints are unsatisfiable (the graph is
not planar); otherwise pushes the merged conflict pair if it is nonempty. -/
def addConstraints (st : LRState) (ei e : Nat × Nat) : Option LRState :=
  let bottom := amLookupD st.stackBottom ei 0
  match acMergeR e bottom (st.stack.length + 1) st ⟨⟨none, none⟩, ⟨none, none⟩⟩ with
  | none => none
  | some (st1, P1) =>
    match acMergeConfl ei (st1.stack.length + 1) st1 P1 with
    | none => none
    | some (st2, P2) =>
      if P2.l.isEmpty && P2.r.isEmpty then some st2
      else some { st2 with stack := P2 :: st2.stack }

/-- Follow "ref" pointers while the interval's highest edge returns to vertex
`u`, trimming back edges that end at the parent (spec section 4.3). -/
def trimHigh (u : Nat) (sRef : List ((Nat × Nat) × Option (Nat × Nat))) :
    Nat → Option (Nat × Nat) → Option (Nat × Nat)
  | 0, h => h
  | Nat.succ fuel, h =>
    match h with
    | some he => if he.2 = u then trimHigh u sRef fuel (amLookupD sRef he none) else h
    | none => none

/-- Drop the conflict pairs whose lowest return point equals the height of
`u` (their back edges all return to the parent), marking their left intervals
with side -1 (spec section 4.3). -/
def rbeDropLoop (hu : Nat) : Nat → LRState → LRState
  | 0, st => st
  | Nat.succ fuel, st =>
    match st.stack with
    | [] => st
    | p :: rest =>
      if lowestCP p st = hu then
        let st1 := { st with stack := rest }
        let st2 :=
          match p.l.low with
          | some ll => { st1 with side := amSet st1.side ll (-1) }
          | none => st1
        rbeDropLoop hu fuel st2
      else st

/-- `remove_back_edges(e)` of the left-right test (spec section 4.3): when the
DFS returns over tree edge `e = (u, v)`, drop and trim the back edges
returning to `u`, and record which highest return edge determines `e`'s
sign. -/
def removeBackEdges (st : LRState) (e : Nat × Nat) : LRState :=
  let u := e.1
  let hu := amLookupD st.height u 0
  let st := rbeDropLoop hu (st.stack.length + 1) st
  let st :=
    match st.stack with
    | [] => st
    | p :: rest =>
      let st := { st with stack := rest }
      let fuelT := st.sRef.length + 1
      let lh := trimHigh u st.sRef fuelT p.l.high
      let (p, st) :=
        match lh, p.l.low with
        | none, some ll =>
          (({ p with l := ⟨none, none⟩ } : CPair),
           { st with sRef := amSet st.sRef ll p.r.low,
                     side := amSet st.side ll (-1) })
        | _, _ => ({ p with l := { p.l with high := lh } }, st)
      let rh := trimHigh u st.sRef fuelT p.r.high
      let (p, st) :=
        match rh, p.r.low with
        | none, some rl =>
          (({ p with r := ⟨none, none⟩ } : CPair),
           { st with sRef := amSet st.sRef rl p.l.low,
                     side := amSet st.side rl (-1) })
        | _, _ => ({ p with r := { p.r with high := rh } }, st)
      { st with stack := p :: st.stack }
  if lowptD st e < hu then
    match st.stack with
    | p :: _ =>
      let choice :=
        match p.l.high, p.r.high with
        | some a, none => some a
        | some a, some b => if lowptD st a > lowptD st b then some a else some b
        | none, hr => hr
      { st with sRef := amSet st.sRef e choice }
    | [] => st
  else st

/-- The "integrate new return edges" step for edge `ei = (v, w)` (spec
section 4.3): if `ei` has a return edge below `v`, either adopt its lowpoint
edge (first outgoing edge) or add its constraints; `none` signals
non-planarity. -/
def integrateEdge (st : LRState) (v w : Nat) : Option LRState :=
  let ei : Nat × Nat := (v, w)
  if lowptD st ei < amLookupD st.height v 0 then
    match (amLookupD st.orderedAdjs v []).head? with
    | some w0 =>
      if w = w0 then
        match amLookup st.parentEdge v with
        | some e =>
          some { st with lowptEdge := amSet st.lowptEdge e (amLookupD st.lowptEdge ei ei) }
        | none => some st
      else
        match amLookup st.parentEdge v with
        | some e => addConstraints st ei e
        | none => some st
    | none => some st
  else some st

/-- The testing DFS of the left-right test (spec section 4.3), with an
explicit work stack of (vertex, remaining ordered adjacency) frames.  A tree
edge descends; a back edge pushes a fresh conflict pair; finishing a vertex
removes the back edges returning to its parent and integrates the completed
edge's constraints at the parent.  `none` signals non-planarity. -/
def dfsTestLoop : Nat → List (Nat × List Nat) → LRState → Option LRState
  | 0, _, st => some st
  | Nat.succ fuel, frames, st =>
    match frames with
    | [] => some st
    | (v, []) :: rest =>
      let st1 :=
        match amLookup st.parentEdge v with
        | some e => removeBackEdges st e
        | none => st
      match rest with
      | (p, w :: ws) :: rest2 =>
        match integrateEdge st1 p w with
        | none => none
        | some st2 => dfsTestLoop fuel ((p, ws) :: rest2) st2
      | _ => dfsTestLoop fuel rest st1
    | (v, w :: ws) :: rest =>
      let ei : Nat × Nat := (v, w)
      let st1 := { st with stackBottom := amSet st.stackBottom ei st.stack.length }
      if amLookup st1.parentEdge w = some ei then
        dfsTestLoop fuel ((w, amLookupD st1.orderedAdjs w []) :: (v, w :: ws) :: rest) st1
      else
        let st2 :=
          { st1 with lowptEdge := amSet st1.lowptEdge ei ei,
                     stack := (⟨⟨none, none⟩, ⟨some ei, some ei⟩⟩ : CPair) :: st1.stack }
        match integrateEdge st2 v w with
        | none => none
        | some st3 => dfsTestLoop fuel ((v, ws) :: rest) st3

/-- Run the testing DFS from every root; `none` signals non-planarity. -/
def dfsTestAll (fuel : Nat) : List Nat → LRState → Option LRState
  | [], st => some st
  | v :: vs, st =>
    match dfsTestLoop fuel [(v, amLookupD st.orderedAdjs v [])] st with
    | none => none
    | some st2 => dfsTestAll fuel vs st2

/-- Resolve the absolute sign of an edge by composing side values along its
"ref" chain, memoizing the result (spec section 4.3, Pass B). -/
def signOf : Nat → LRState → Nat × Nat → Int × LRState
  | 0, st, e => (amLookupD st.side e 1, st)
  | Nat.succ fuel, st, e =>
    match amLookupD st.sRef e none with
    | none => (amLookupD st.side e 1, st)
    | some r =>
      let pr := signOf fuel st r
      let ns := amLookupD pr.2.side e 1 * pr.1
      (ns, { pr.2 with side := amSet pr.2.side e ns, sRef := amSet pr.2.sRef e none })

/-- Fold each oriented edge's resolved sign into its nesting depth, so that
the final adjacency order realizes the flips (spec sections 4.3 / 4.4). -/
def applySigns (fuel : Nat) : List (Nat × Nat) → LRState → LRState
  | [], st => st
  | e :: es, st =>
    let pr := signOf fuel st e
    let nd := amLookupD pr.2.nestingDepth e 0
    applySigns fuel es
      { pr.2 with nestingDepth := amSet pr.2.nestingDepth e (pr.1 * nd) }

/-- Insert `v` as the new first neighbor of `w` (tree edges enter at the
front of the rotation; spec section 4.4). -/
def embAddFirst (emb : Emb) (w v : Nat) : Emb :=
  amSet emb w (v :: rotOf emb w)

/-- Insert `v` into `w`'s rotation directly after the reference in clockwise
order (= directly before it in the stored CCW list). -/
def embInsertCwAfter (emb : Emb) (w v ref : Nat) : Emb :=
  amSet emb w (insertBefore (rotOf emb w) ref v)

/-- Insert `v` into `w`'s rotation directly before the reference in clockwise
order (= directly after it in the stored CCW list). -/
def embInsertCwBefore (emb : Emb) (w v ref : Nat) : Emb :=
  amSet emb w (insertAfter (rotOf emb w) ref v)

/-- The embedding DFS (spec section 4.4): walk the tree in final adjacency
order; each tree edge is registered first at the child and becomes both side
references of its source; each back edge is spliced at its target — after the
right reference for sign +1, before the left reference (which it then
becomes) for sign -1. -/
def dfsEmbLoop : Nat → List (Nat × List Nat) → LRState → LRState
  | 0, _, st => st
  | Nat.succ fuel, frames, st =>
    match frames with
    | [] => st
    | (_v, []) :: rest =>
      match rest with
      | (p, _w :: ws) :: rest2 => dfsEmbLoop fuel ((p, ws) :: rest2) st
      | _ => dfsEmbLoop fuel rest st
    | (v, w :: ws) :: rest =>
      let ei : Nat × Nat := (v, w)
      if amLookup st.parentEdge w = some ei then
        let st1 :=
          { st with embOut := embAddFirst st.embOut w v,
                    leftRef := amSet st.leftRef v w,
                    rightRef := amSet st.rightRef v w }
        dfsEmbLoop fuel ((w, amLookupD st1.orderedAdjs w []) :: (v, w :: ws) :: rest) st1
      else
        if amLookupD st.side ei 1 = 1 then
          let st1 :=
            match amLookup st.rightRef w with
            | some r => { st with embOut := embInsertCwAfter st.embOut w v r }
            | none => st
          dfsEmbLoop fuel ((v, ws) :: rest) st1
        else
          let st1 :=
            match amLookup st.leftRef w with
            | some r =>
              { st with embOut := embInsertCwBefore st.embOut w v r,
                        leftRef := amSet st.leftRef w v }
            | none => st
          dfsEmbLoop fuel ((v, ws) :: rest) st1

/-- Run the embedding DFS from every root. -/
def dfsEmbAll (fuel : Nat) : List Nat → LRState → LRState
  | [], st => st
  | v :: vs, st =>
    dfsEmbAll fuel vs (dfsEmbLoop fuel [(v, amLookupD st.orderedAdjs v [])] st)

/-- Modelled from the spec: the complete left-right planarity run (sections
4.2 to 4.4) — Euler density cutoff, DFS orientation, adjacency ordering by
nesting depth, testing DFS, sign resolution, and embedding construction.
Returns the embedding on success and `none` if the graph is not planar. -/
def lrPlanarity (g0 : NxGraph) : Option Emb :=
  let g := lrCopy g0
  let n := g.nodes.length
  let m := nxSize g
  if n > 2 && m > 3 * n - 6 then none
  else
    let adjs := g.adj
    let totalAdj := g.nodes.foldl (fun s v => s + (amLookupD adjs v []).length) 0
    let fuelO := totalAdj + 2 * n + 2
    let st1 := orientAll adjs fuelO g.nodes initLRState
    let st2 := { st1 with orderedAdjs := computeOrdered st1 g.nodes }
    let fuelT := 2 * totalAdj + 2 * n + 4
    match dfsTestAll fuelT st2.roots st2 with
    | none => none
    | some st3 =>
      let dgEdges :=
        g.nodes.flatMap (fun v => (amLookupD st3.dgAdj v []).map (fun w => (v, w)))
      let st4 := applySigns (st3.sRef.length + 1) dgEdges st3
      let st5 := { st4 with orderedAdjs := computeOrdered st4 g.nodes }
      let st6 :=
        { st5 with embOut := g.nodes.map (fun v => (v, (amLookupD st5.orderedAdjs v []).reverse)) }
      let st7 := dfsEmbAll fuelT st6.roots st6
      some st7.embOut

/-- Modelled from the spec: `check_planarity(G)` — the output of the planarity
test is `(is_planar, embedding)`, with `embedding = None` exactly when the
graph is not planar (spec sections 4.3 / 6). -/
def checkPlanarity (g : NxGraph) : Bool × Option Emb :=
  match lrPlanarity g with
  | none => (false, none)
  | some emb => (true, some emb)

/-! ### The batch verifier (main of src/assets/verify_answers.py, lines 69-86)

One test case per record: edge list, expected marker character, optional
externally supplied embedding.  The loop builds an `nx.Graph`, runs
`check_planarity`, exits with code 1 on a planarity mismatch, and exits with
code 2 when a supplied embedding of a test expected planar fails validation.
An exception escaping `verify_embedding` is uncaught in `main`. -/

/-- One record of `read_tests`: edges, the expected `+`/`-` marker, and the
optional supplied embedding (rotation dict rows). -/
structure TestCase where
  edges : List (Nat × Nat)
  expected : Char
  embedding : Option (List (Nat × List Nat))

/-- How a run of `main` ends: all tests processed, `sys.exit(code)`, or an
uncaught exception from the embedding construction. -/
inductive MainResult : Type
  | finished
  | exitCode (code : Nat)
  | uncaught (e : EmbErr)
  deriving DecidableEq, Repr

/-- The test loop of `main` (lines 72-85), parameterized by the planarity
test and the embedding validator it calls, so that which parts of their
output the loop depends on can be stated. -/
def runTestsWith (planar : NxGraph → Bool × Option Emb)
    (validator : List (Nat × Nat) → List (Nat × List Nat) → Except EmbErr Bool) :
    List TestCase → MainResult
  | [] => MainResult.finished
  | t :: rest =>
    let isPlanar : Bool := (planar (nxGraphOf t.edges)).1
    let expectedPlanar : Bool := t.expected == '+'
    if isPlanar ≠ expectedPlanar then MainResult.exitCode 1
    else
      match t.embedding with
      | some rows =>
        if expectedPlanar then
          match validator t.edges rows with
          | Except.error e => MainResult.uncaught e
          | Except.ok b =>
            if b then runTestsWith planar validator rest
            else MainResult.exitCode 2
        else runTestsWith planar validator rest
      | none => runTestsWith planar validator rest

/-- `main` of `verify_answers.py` on an in-memory test list: the loop
instantiated with the program's own planarity test and validator. -/
def runTests : List TestCase → MainResult :=
  runTestsWith checkPlanarity verifyEmbedding

/-- A test case the loop walks past without stopping: the planarity verdict
matches the marker, and any supplied embedding of a test expected planar
validates `True`. -/
def testPasses (t : TestCase) : Prop :=
  (checkPlanarity (nxGraphOf t.edges)).1 = (t.expected == '+') ∧
  ((t.expected == '+') = true → ∀ rows, t.embedding = some rows →
    verifyEmbedding t.edges rows = Except.ok true)

/-- The planarity verdict of a test differs from its expected marker (the
`sys.exit(1)` trigger). -/
def planMismatch (t : TestCase) : Prop :=
  (checkPlanarity (nxGraphOf t.edges)).1 ≠ (t.expected == '+')

/-- The test is expected planar and its supplied embedding fails validation
with the boolean `False` (the `sys.exit(2)` trigger). -/
def embFails (t : TestCase) : Prop :=
  (t.expected == '+') = true ∧ ∃ rows, t.embedding = some rows ∧
    verifyEmbedding t.edges rows = Except.ok false

/-! ### Concrete inputs of the specification -/

/-- K5: the complete graph on 5 vertices, all 10 edges. -/
def k5Edges : List (Nat × Nat) :=
  [(0, 1), (0, 2), (0, 3), (0, 4), (1, 2), (1, 3), (1, 4), (2, 3), (2, 4), (3, 4)]

/-- K3,3: the complete bipartite graph on 6 vertices, 9 edges. -/
def k33Edges : List (Nat × Nat) :=
  [(0, 3), (0, 4), (0, 5), (1, 3), (1, 4), (1, 5), (2, 3), (2, 4), (2, 5)]

/-- The 4-cycle 0-1, 1-2, 2-3, 3-0 of the spec's concrete scenario. -/
def fourCycleEdges : List (Nat × Nat) := [(0, 1), (1, 2), (2, 3), (3, 0)]

/-- The rotation system of the spec's concrete scenario: vertex 0's rotation
is [1,3], 1's is [0,2], 2's is [1,3], 3's is [2,0]. -/
def fourCycleRotation : List (Nat × List Nat) :=
  [(0, [1, 3]), (1, [0, 2]), (2, [1, 3]), (3, [2, 0])]

/-- An embedding with the single half-edge 0 → 1 and no twin: its
construction succeeds and its structure check fails. -/
def soloHalfEdgeRotation : List (Nat × List Nat) := [(0, [1])]

/-! ### Lemmas -/

/-- `hasEdge` decides unordered membership of `{u, v}` in the edge list. -/
theorem hasEdge_eq_true_iff (g : GraphModel) (u v : Nat) :
    hasEdge g u v = true ↔ ((u, v) ∈ g.edges ∨ (v, u) ∈ g.edges) := by
  unfold hasEdge
  rw [List.any_eq_true]
  constructor
  · rintro ⟨⟨a, b⟩, hmem, hcond⟩
    rcases Bool.or_eq_true_iff.mp hcond with h | h
    · obtain ⟨h1, h2⟩ := Bool.and_eq_true_iff.mp h
      exact Or.inl (by
        have ha : a = u := by exact_mod_cast of_decide_eq_true h1
        have hb : b = v := by exact_mod_cast of_decide_eq_true h2
        rw [ha, hb] at hmem; exact hmem)
    · obtain ⟨h1, h2⟩ := Bool.and_eq_true_iff.mp h
      exact Or.inr (by
        have ha : a = v := by exact_mod_cast of_decide_eq_true h1
        have hb : b = u := by exact_mod_cast of_decide_eq_true h2
        rw [ha, hb] at hmem; exact hmem)
  · rintro (h | h)
    · exact ⟨(u, v), h, by simp⟩
    · exact ⟨(v, u), h, by simp⟩

/-- One step of the test loop, written out. -/
theorem runTestsWith_cons (p : NxGraph → Bool × Option Emb)
    (v : List (Nat × Nat) → List (Nat × List Nat) → Except EmbErr Bool)
    (t : TestCase) (l : List TestCase) :
    runTestsWith p v (t :: l) =
      (if ((p (nxGraphOf t.edges)).1 : Bool) ≠ (t.expected == '+') then
        MainResult.exitCode 1
      else
        match t.embedding with
        | some rows =>
          if (t.expected == '+') then
            match v t.edges rows with
            | Except.error e => MainResult.uncaught e
            | Except.ok b => if b then runTestsWith p v l else MainResult.exitCode 2
          else runTestsWith p v l
        | none => runTestsWith p v l) := rfl

/-- A passing test is walked past: the loop on `t :: l` continues on `l`. -/
theorem runTests_cons_pass (t : TestCase) (l : List TestCase)
    (h : testPasses t) : runTests (t :: l) = runTests l := by
  obtain ⟨h1, h2⟩ := h
  show runTestsWith checkPlanarity verifyEmbedding (t :: l) =
    runTestsWith checkPlanarity verifyEmbedding l
  rw [runTestsWith_cons, if_neg (by simp [h1])]
  cases ht : t.embedding with
  | none => rfl
  | some rows =>
    by_cases he : (t.expected == '+') = true
    · simp [he, h2 he rows ht]
    · simp [he]

/-- A prefix of passing tests is walked past. -/
theorem runTests_append_pass (pre : List TestCase) (l : List TestCase)
    (h : ∀ x ∈ pre, testPasses x) : runTests (pre ++ l) = runTests l := by
  induction pre with
  | nil => rfl
  | cons t rest ih =>
    rw [List.cons_append, runTests_cons_pass t (rest ++ l) (h t (by simp))]
    exact ih (fun x hx => h x (by simp [hx]))

/-- A planarity mismatch at the head exits with code 1. -/
theorem runTests_head_mismatch (t : TestCase) (l : List TestCase)
    (h : planMismatch t) : runTests (t :: l) = MainResult.exitCode 1 := by
  unfold planMismatch at h
  show runTestsWith checkPlanarity verifyEmbedding (t :: l) = MainResult.exitCode 1
  rw [runTestsWith_cons, if_pos h]

/-- A failing supplied embedding at the head (planarity matching) exits with
code 2. -/
theorem runTests_head_embfail (t : TestCase) (l : List TestCase)
    (h1 : ¬ planMismatch t) (h2 : embFails t) :
    runTests (t :: l) = MainResult.exitCode 2 := by
  obtain ⟨hplus, rows, hrows, hver⟩ := h2
  unfold planMismatch at h1
  show runTestsWith checkPlanarity verifyEmbedding (t :: l) = MainResult.exitCode 2
  rw [runTestsWith_cons, if_neg h1, hrows]
  simp [hplus, hver]

/-- The loop result depends on the planarity functions only through the
boolean verdict. -/
theorem runTestsWith_planar_eq (p1 p2 : NxGraph → Bool × Option Emb)
    (validator : List (Nat × Nat) → List (Nat × List Nat) → Except EmbErr Bool)
    (h : ∀ g, (p1 g).1 = (p2 g).1) :
    ∀ ts, runTestsWith p1 validator ts = runTestsWith p2 validator ts
  | [] => rfl
  | t :: rest => by
    have ih := runTestsWith_planar_eq p1 p2 validator h rest
    rw [runTestsWith_cons, runTestsWith_cons, h (nxGraphOf t.edges), ih]

/-- On tests that are not (expected planar with an embedding present), the
loop never consults the validator. -/
theorem runTestsWith_validator_eq (p : NxGraph → Bool × Option Emb)
    (v1 v2 : List (Nat × Nat) → List (Nat × List Nat) → Except EmbErr Bool) :
    ∀ ts, (∀ t ∈ ts, (t.expected == '+') = false ∨ t.embedding = none) →
      runTestsWith p v1 ts = runTestsWith p v2 ts
  | [], _ => rfl
  | t :: rest, h => by
    have ih := runTestsWith_validator_eq p v1 v2 rest (fun x hx => h x (by simp [hx]))
    rw [runTestsWith_cons, runTestsWith_cons, ih]
    rcases h t (by simp) with hm | hm
    · simp [hm]
    · rw [hm]

/-! ### Claims -/

/-- C1: for every input edge list and every externally supplied rotation
system whose half-edge construction succeeds, the validator returns `True`
iff the structural check passes and the set of unordered pairs induced by the
embedding equals the input edge set; in particular unequal edge sets always
yield `False`. -/
theorem C1_verify_true_iff (edges : List (Nat × Nat))
    (rows : List (Nat × List Nat)) (emb : Emb)
    (hbuild : buildEmbedding rows = Except.ok emb) :
    (verifyEmbedding edges rows = Except.ok true ↔
      (checkStructure emb = true ∧ edgeFinset edges = embFinset rows)) ∧
    (edgeFinset edges ≠ embFinset rows →
      verifyEmbedding edges rows = Except.ok false) := by
  unfold verifyEmbedding
  rw [hbuild]
  by_cases hs : checkStructure emb
  · simp [hs]
  · simp [hs]

/-- C1 witness: at the spec's concrete 4-cycle the equivalence holds with
both sides true; removing edge 3-0 from the reference edge set makes
validation return `False`. -/
theorem C1_witness :
    verifyEmbedding fourCycleEdges fourCycleRotation = Except.ok true ∧
    verifyEmbedding [(0, 1), (1, 2), (2, 3)] fourCycleRotation = Except.ok false := by
  constructor
  · exact (C1_verify_true_iff fourCycleEdges fourCycleRotation
      [(0, [1, 3]), (1, [0, 2]), (2, [1, 3]), (3, [2, 0])] (by decide)).1.mpr
      ⟨by decide, by decide⟩
  · exact (C1_verify_true_iff [(0, 1), (1, 2), (2, 3)] fourCycleRotation
      [(0, [1, 3]), (1, [0, 2]), (2, [1, 3]), (3, [2, 0])] (by decide)).2 (by decide)

/-- C2: the planarity test reports `is_planar = false` for K5 (5 vertices,
all 10 edges) and for K3,3 (complete bipartite, 6 vertices, 9 edges). -/
theorem C2_k5_k33_nonplanar :
    (checkPlanarity (nxGraphOf k5Edges)).1 = false ∧
    (checkPlanarity (nxGraphOf k33Edges)).1 = false := by
  exact ⟨by decide, by decide⟩

/-- C4: the spec's concrete scenario — the 4-cycle is reported planar, the
supplied rotation system validates `True` against its edge set, and K5 is
reported not planar with no embedding produced. -/
theorem C4_concrete_scenario :
    (checkPlanarity (nxGraphOf fourCycleEdges)).1 = true ∧
    verifyEmbedding fourCycleEdges fourCycleRotation = Except.ok true ∧
    checkPlanarity (nxGraphOf k5Edges) = (false, none) := by
  exact ⟨by decide, by decide, by decide⟩

/-- C5 counterexample: a rotation system with the single half-edge 0 → 1
builds successfully, fails the structural check (the source raises
`MalformedEmbeddingError` there), and yet the validator returns the boolean
`False` rather than propagating the error. -/
theorem C5_counterexample :
    buildEmbedding soloHalfEdgeRotation = Except.ok [(0, [1])] ∧
    checkStructure [(0, [1])] = false ∧
    verifyEmbedding [(0, 1)] soloHalfEdgeRotation = Except.ok false := by
  exact ⟨by decide, by decide, by decide⟩

/-- C5 (amended): when the structural check detects a malformed embedding,
the validator catches the error and returns the boolean `False` to its
caller, rather than propagating it. -/
theorem C5_amended_catches (edges : List (Nat × Nat))
    (rows : List (Nat × List Nat)) (emb : Emb)
    (hbuild : buildEmbedding rows = Except.ok emb)
    (hs : checkStructure emb = false) :
    verifyEmbedding edges rows = Except.ok false := by
  unfold verifyEmbedding
  rw [hbuild]
  dsimp only
  rw [hs]
  rfl

/-- C5 witness: the half-edge 5 → 6 without its twin is caught and turned
into `False`. -/
theorem C5_witness : verifyEmbedding [(5, 6)] [(5, [6])] = Except.ok false :=
  C5_amended_catches [(5, 6)] [(5, [6])] [(5, [6])] (by decide) (by decide)

/-- C6: for every externally supplied embedding violating the half-edge
structural contracts, validation is recoverable at the validator boundary:
a construction error is returned to the caller as the error detail, and a
failing structural check yields the boolean `False`; the validator is a total
function and never crashes. -/
theorem C6_recoverable (edges : List (Nat × Nat)) (rows : List (Nat × List Nat)) :
    (∀ err, buildEmbedding rows = Except.error err →
      verifyEmbedding edges rows = Except.error err) ∧
    (∀ emb, buildEmbedding rows = Except.ok emb → checkStructure emb = false →
      verifyEmbedding edges rows = Except.ok false) := by
  constructor
  · intro err herr
    unfold verifyEmbedding
    rw [herr]
  · intro emb hok hs
    unfold verifyEmbedding
    rw [hok]
    dsimp only
    rw [hs]
    rfl

/-- C6 witness: a rotation listing neighbor 1 twice surfaces
`AlreadyInsertedError` to the caller; a twin-less half-edge 2 → 3 yields
`False`. -/
theorem C6_witness :
    verifyEmbedding [(0, 1)] [(0, [1, 1])] = Except.error EmbErr.alreadyInserted ∧
    verifyEmbedding [(2, 3)] [(2, [3])] = Except.ok false :=
  ⟨(C6_recoverable [(0, 1)] [(0, [1, 1])]).1 EmbErr.alreadyInserted (by decide),
   (C6_recoverable [(2, 3)] [(2, [3])]).2 [(2, [3])] (by decide) (by decide)⟩

/-- C7: graph construction rejects malformed input immediately and never
silently coerces it — `add_edge(u, v)` fails with `SelfLoopError` when
`u = v`, fails with `DuplicateEdgeError` when the unordered pair `{u, v}` is
already present, and otherwise records exactly the new edge. -/
theorem C7_add_edge_rejects (g : GraphModel) (u v : Nat) :
    (u = v → addEdge g u v = Except.error GraphErr.selfLoopError) ∧
    (u ≠ v → ((u, v) ∈ g.edges ∨ (v, u) ∈ g.edges) →
      addEdge g u v = Except.error GraphErr.duplicateEdgeError) ∧
    (u ≠ v → ¬((u, v) ∈ g.edges ∨ (v, u) ∈ g.edges) →
      addEdge g u v = Except.ok ⟨g.edges ++ [(u, v)]⟩) := by
  refine ⟨fun h => ?_, fun hne hmem => ?_, fun hne hmem => ?_⟩
  · unfold addEdge
    rw [if_pos h]
  · unfold addEdge
    rw [if_neg hne, if_pos ((hasEdge_eq_true_iff g u v).mpr hmem)]
  · unfold addEdge
    rw [if_neg hne, if_neg (fun hc => hmem ((hasEdge_eq_true_iff g u v).mp hc))]

/-- C7 witness: on the graph holding the single edge (1, 2), adding 3-3 hits
`SelfLoopError`, adding 2-1 hits `DuplicateEdgeError` (unordered), and adding
1-3 succeeds. -/
theorem C7_witness :
    addEdge ⟨[(1, 2)]⟩ 3 3 = Except.error GraphErr.selfLoopError ∧
    addEdge ⟨[(1, 2)]⟩ 2 1 = Except.error GraphErr.duplicateEdgeError ∧
    addEdge ⟨[(1, 2)]⟩ 1 3 = Except.ok ⟨[(1, 2), (1, 3)]⟩ :=
  ⟨(C7_add_edge_rejects ⟨[(1, 2)]⟩ 3 3).1 rfl,
   (C7_add_edge_rejects ⟨[(1, 2)]⟩ 2 1).2.1 (by decide) (Or.inr (by simp)),
   (C7_add_edge_rejects ⟨[(1, 2)]⟩ 1 3).2.2 (by decide) (by decide)⟩

/-- C8: validating the same (edge list, embedding) pair twice yields the same
result both times — the validator reads nothing but its arguments (the source
builds a fresh `PlanarEmbedding` from them on every call), so it is a pure
function of its inputs. -/
theorem C8_validation_deterministic (edges : List (Nat × Nat))
    (rows : List (Nat × List Nat)) :
    verifyEmbedding edges rows = verifyEmbedding edges rows := rfl

/-- C9: the batch verifier stops at the first failing test — after any prefix
of passing tests, a planarity mismatch terminates with exit code 1, a failing
supplied embedding (with matching planarity) terminates with exit code 2, and
in either case the tests after the failure never influence the result. -/
theorem C9_stops_at_first_failure (pre : List TestCase) (t : TestCase)
    (rest rest2 : List TestCase) (hpre : ∀ x ∈ pre, testPasses x) :
    (planMismatch t → runTests (pre ++ t :: rest) = MainResult.exitCode 1) ∧
    (¬ planMismatch t → embFails t →
      runTests (pre ++ t :: rest) = MainResult.exitCode 2) ∧
    ((planMismatch t ∨ embFails t) →
      runTests (pre ++ t :: rest) = runTests (pre ++ t :: rest2)) := by
  refine ⟨fun hm => ?_, fun hnm hf => ?_, fun hor => ?_⟩
  · rw [runTests_append_pass pre (t :: rest) hpre, runTests_head_mismatch t rest hm]
  · rw [runTests_append_pass pre (t :: rest) hpre, runTests_head_embfail t rest hnm hf]
  · by_cases hm : planMismatch t
    · rw [runTests_append_pass pre (t :: rest) hpre,
        runTests_append_pass pre (t :: rest2) hpre,
        runTests_head_mismatch t rest hm, runTests_head_mismatch t rest2 hm]
    · have hf := hor.resolve_left hm
      rw [runTests_append_pass pre (t :: rest) hpre,
        runTests_append_pass pre (t :: rest2) hpre,
        runTests_head_embfail t rest hm hf, runTests_head_embfail t rest2 hm hf]

/-- C9 witness: a triangle marked `-` exits with code 1; a planar graph
marked `+` whose supplied embedding misses edge 0-2 exits with code 2 —
regardless of the tests that follow. -/
theorem C9_witness :
    runTests [⟨[(0, 1), (1, 2), (2, 0)], '-', none⟩] = MainResult.exitCode 1 ∧
    runTests [⟨[(0, 1), (1, 2), (2, 3), (3, 0), (0, 2)], '+', some fourCycleRotation⟩,
      ⟨[(7, 8)], '+', none⟩] = MainResult.exitCode 2 := by
  constructor
  · exact (C9_stops_at_first_failure [] ⟨[(0, 1), (1, 2), (2, 0)], '-', none⟩ [] []
      (by intro x hx; cases hx)).1 (by unfold planMismatch; decide)
  · exact (C9_stops_at_first_failure []
      ⟨[(0, 1), (1, 2), (2, 3), (3, 0), (0, 2)], '+', some fourCycleRotation⟩
      [⟨[(7, 8)], '+', none⟩] [] (by intro x hx; cases hx)).2.1
      (by unfold planMismatch; decide)
      ⟨by decide, fourCycleRotation, rfl, by decide⟩

/-- C10: the batch verifier never validates the embedding produced by the
planarity test — the loop's result depends on that test only through its
boolean verdict — and the externally supplied embedding is consulted only on
tests expected planar with an embedding present: on every other test list the
validator is never called. -/
theorem C10_discards_computed_embedding :
    (∀ p1 p2 validator ts, (∀ g, (p1 g).1 = (p2 g).1) →
      runTestsWith p1 validator ts = runTestsWith p2 validator ts) ∧
    (∀ p v1 v2 ts, (∀ t ∈ ts, (t.expected == '+') = false ∨ t.embedding = none) →
      runTestsWith p v1 ts = runTestsWith p v2 ts) :=
  ⟨fun p1 p2 validator ts h => runTestsWith_planar_eq p1 p2 validator h ts,
   fun p v1 v2 ts h => runTestsWith_validator_eq p v1 v2 ts h⟩

/-- C10 witness: on a `-` test and a `+` test without embedding, dropping the
planarity test's embedding component and replacing the validator by a
constant both leave the run unchanged. -/
theorem C10_witness :
    runTestsWith checkPlanarity verifyEmbedding
        [⟨k5Edges, '-', none⟩, ⟨fourCycleEdges, '+', none⟩] =
      runTestsWith (fun g => ((checkPlanarity g).1, none)) verifyEmbedding
        [⟨k5Edges, '-', none⟩, ⟨fourCycleEdges, '+', none⟩] ∧
    runTestsWith checkPlanarity verifyEmbedding
        [⟨k5Edges, '-', none⟩, ⟨fourCycleEdges, '+', none⟩] =
      runTestsWith checkPlanarity (fun _ _ => Except.error EmbErr.referenceNotFound)
        [⟨k5Edges, '-', none⟩, ⟨fourCycleEdges, '+', none⟩] :=
  ⟨C10_discards_computed_embedding.1 checkPlanarity
      (fun g => ((checkPlanarity g).1, none)) verifyEmbedding
      [⟨k5Edges, '-', none⟩, ⟨fourCycleEdges, '+', none⟩] (fun _ => rfl),
   C10_discards_computed_embedding.2 checkPlanarity verifyEmbedding
      (fun _ _ => Except.error EmbErr.referenceNotFound)
      [⟨k5Edges, '-', none⟩, ⟨fourCycleEdges, '+', none⟩]
      (by intro t ht; fin_cases ht <;> simp)⟩

end Spqr
